import Mathlib

/-!
Verification of the incremental snapshot backup engine
(`BackupUtility` and friends) against its design document.

The definitions below are a shallow embedding of the C++ sources:
pure helpers become Lean functions, the SQLite-backed catalogue becomes
an association list keyed by path, filesystem and database failures
become explicit outcome values threaded through the control flow, and
the concurrent pieces (bounded queue, progress counter) become explicit
transition systems.
-/

namespace Backup

/-- Embeds `enum class ChangeType` from `BackupUtility.hpp`. -/
inductive ChangeType
  | Unchanged
  | Added
  | Modified
  | Deleted
deriving DecidableEq, Repr

/-- Embeds `ChangeTypeToString` from `BackupUtility.hpp` (lines 28-42). -/
def ChangeTypeToString : ChangeType → String
  | ChangeType.Unchanged => "Unchanged"
  | ChangeType.Added => "Added"
  | ChangeType.Modified => "Modified"
  | ChangeType.Deleted => "Deleted"

/-- Embeds `StringToChangeType` from `BackupUtility.hpp` (lines 50-69):
an if-chain over the four literal identifiers, `Unchanged` otherwise. -/
def StringToChangeType (s : String) : ChangeType :=
  if s = "Unchanged" then ChangeType.Unchanged
  else if s = "Added" then ChangeType.Added
  else if s = "Modified" then ChangeType.Modified
  else if s = "Deleted" then ChangeType.Deleted
  else ChangeType.Unchanged

/-- One row of the `files` table: `hash`, `status`, `last_updated`. -/
structure FileRecord where
  hash : String
  status : ChangeType
  lastUpdated : String
deriving DecidableEq, Repr

/-- The catalogue (`files` table) as an association list keyed by `path`.
`path TEXT PRIMARY KEY` keeps keys unique in SQLite; the list operations
below act on the first matching key, matching single-row semantics. -/
abbrev Catalogue := List (String × FileRecord)

/-- Embeds `SQLiteSession::GetFileState` / `FileStateRepository::GetFileState`:
`SELECT hash, status, last_updated FROM files WHERE path=?1` returning the
row for `path` when present. -/
def getFileState : Catalogue → String → Option FileRecord
  | [], _ => none
  | e :: rest, path => if e.1 = path then some e.2 else getFileState rest path

/-- Embeds `UpdateFileState`: `INSERT ... ON CONFLICT(path) DO UPDATE SET`
(replace the row in place when the key exists, append otherwise). -/
def upsertRow : Catalogue → String → FileRecord → Catalogue
  | [], path, r => [(path, r)]
  | e :: rest, path, r =>
      if e.1 = path then (path, r) :: rest else e :: upsertRow rest path r

/-- Embeds `MarkFileAsDeleted`:
`UPDATE files SET status=?1, last_updated=?2 WHERE path=?3` with `?1` bound
to the text of `ChangeType::Deleted`. Only `status` and `last_updated` are
assigned; `hash` is untouched. -/
def markRowDeleted (cat : Catalogue) (path ts : String) : Catalogue :=
  cat.map (fun e =>
    if e.1 = path then (e.1, { e.2 with status := ChangeType.Deleted, lastUpdated := ts })
    else e)

theorem getFileState_markRowDeleted (cat : Catalogue) (path ts : String) (r : FileRecord)
    (h : getFileState cat path = some r) :
    getFileState (markRowDeleted cat path ts) path =
      some { hash := r.hash, status := ChangeType.Deleted, lastUpdated := ts } := by
  induction cat with
  | nil => simp [getFileState] at h
  | cons e rest ih =>
      by_cases hp : e.1 = path
      · simp [getFileState, hp] at h
        subst h
        simp [markRowDeleted, getFileState, hp]
      · simp [getFileState, hp] at h
        have := ih h
        simpa [markRowDeleted, getFileState, hp] using this

/-- C5: for every path that has a catalogue row, `markDeleted(path, ts)`
sets that row's status to `Deleted`, its `lastUpdated` to `ts`, and leaves
the row's `hash` unchanged. -/
theorem C5_markDeleted_sets_status_preserves_hash
    (cat : Catalogue) (path ts : String) (r : FileRecord)
    (h : getFileState cat path = some r) :
    ∃ r' : FileRecord,
      getFileState (markRowDeleted cat path ts) path = some r' ∧
      r'.status = ChangeType.Deleted ∧ r'.lastUpdated = ts ∧ r'.hash = r.hash := by
  refine ⟨{ hash := r.hash, status := ChangeType.Deleted, lastUpdated := ts }, ?_, rfl, rfl, rfl⟩
  exact getFileState_markRowDeleted cat path ts r h

theorem C5_markDeleted_sets_status_preserves_hash_witness :
    ∃ r' : FileRecord,
      getFileState (markRowDeleted [("a/b.txt", ⟨"ff12", ChangeType.Added, "2024-01-01_00-00-00"⟩)]
          "a/b.txt" "2024-01-02_00-00-00") "a/b.txt" = some r' ∧
      r'.status = ChangeType.Deleted ∧ r'.lastUpdated = "2024-01-02_00-00-00" ∧ r'.hash = "ff12" :=
  C5_markDeleted_sets_status_preserves_hash
    [("a/b.txt", ⟨"ff12", ChangeType.Added, "2024-01-01_00-00-00"⟩)]
    "a/b.txt" "2024-01-02_00-00-00" ⟨"ff12", ChangeType.Added, "2024-01-01_00-00-00"⟩ (by decide)

/-- Outcome of a repository call as seen by its caller: the call may throw
`std::runtime_error`, return `false`, or return `true`. -/
inductive RepoOutcome
  | throws
  | fails
  | ok
deriving DecidableEq, Repr

/-- The lazily created snapshot directory of one run: the `std::once_flag`
plus cached path of `SnapshotDirectoryProvider`, together with how many
times `FilesystemSnapshotDirectory::Create` actually ran (how many
timestamped directories were made on disk). -/
structure SnapState where
  path : Option String
  creations : Nat
deriving DecidableEq, Repr

/-- Embeds `SnapshotDirectoryProvider::GetOrCreate` backed by
`FilesystemSnapshotDirectory::Create`: under `std::call_once`, the first
caller creates `historyRoot/<timestamp now>` (which can throw, modelled by
`thr = true`: the once-flag stays unset and the state is unchanged); later
callers get the cached path without touching the filesystem. -/
def getOrCreateSnapshot (historyRoot now : String) (thr : Bool) (s : SnapState) :
    Option (String × SnapState) :=
  match s.path with
  | some p => some (p, s)
  | none =>
      if thr then none
      else
        let p := historyRoot ++ "/" ++ now
        some (p, { path := some p, creations := s.creations + 1 })

/-- Environment of one `ProcessBackupFile::Execute` call: the results the
filesystem, hasher, clock and repository hand back for this file. -/
structure ExecEnv where
  /-- `fs::relative(file, sourceRoot, ec)`: `none` when `ec` is set. -/
  relPathResult : Option String
  /-- `file.filename()`, substituted when the relative path is `"."`. -/
  fileName : String
  /-- `FileHasher::Compute`: `none` when it returns `false`. -/
  hashResult : Option String
  /-- `GetFileState` throws `std::runtime_error` (connection failure). -/
  getThrows : Bool
  /-- `GetOrCreate` throws on first creation. -/
  snapshotThrows : Bool
  /-- Result of `UpdateFileState`. -/
  upsertOutcome : RepoOutcome
  /-- `TimestampProvider::NowFilesystemSafe()`. -/
  now : String
  /-- whether `_onProgress` is non-null. -/
  hasCallback : Bool
deriving Repr

/-- Observable effects of one `ProcessBackupFile::Execute` call. -/
structure ExecResult where
  /-- value of the shared success flag contribution: `false` iff
  `_success.store(false)` ran. -/
  success : Bool
  /-- whether the `"collecting"` progress callback was invoked. -/
  progressCalled : Bool
  /-- the classification (`newStatus`) the run computed, when reached. -/
  newStatus : Option ChangeType
  /-- the `timestampValue` passed to the upsert, when reached. -/
  timestampUsed : Option String
  /-- whether `fs::copy_file(file, backupFile, ...)` was attempted. -/
  mirrorWritten : Bool
  /-- whether `UpdateFileState` was invoked. -/
  upsertCalled : Bool
  catalogue : Catalogue
  snap : SnapState
deriving Repr

/-- `relativePath` after the `"." == relativePath` substitution
(lines 24-25 of `ProcessBackupFile.cpp`). -/
def effectiveRelPath (fileName rp : String) : String :=
  if rp = "." then fileName else rp

/-- `hasRecord` of `ProcessBackupFile.cpp` line 41-42: a record was found
and its status is not `Deleted`. -/
def priorUsable : Option FileRecord → Bool
  | some r => if r.status = ChangeType.Deleted then false else true
  | none => false

/-- An `Execute` call that marked failure before reaching the upsert:
no progress, no classification, state untouched. -/
def execFail (cat : Catalogue) (snap : SnapState) : ExecResult :=
  { success := false, progressCalled := false, newStatus := none, timestampUsed := none,
    mirrorWritten := false, upsertCalled := false, catalogue := cat, snap := snap }

/-- Tail of `Execute` (lines 80-96): the `UpdateFileState` call followed by
the progress report. A throwing upsert returns before the report; a `false`
upsert stores failure and **falls through** to the report. -/
def execUpsertAndReport (env : ExecEnv) (cat : Catalogue) (snap : SnapState)
    (relPath newHash : String) (st : ChangeType) (ts : String) (mirror : Bool) : ExecResult :=
  match env.upsertOutcome with
  | RepoOutcome.throws =>
      { success := false, progressCalled := false, newStatus := some st,
        timestampUsed := some ts, mirrorWritten := mirror, upsertCalled := true,
        catalogue := cat, snap := snap }
  | RepoOutcome.fails =>
      { success := false, progressCalled := env.hasCallback, newStatus := some st,
        timestampUsed := some ts, mirrorWritten := mirror, upsertCalled := true,
        catalogue := cat, snap := snap }
  | RepoOutcome.ok =>
      { success := true, progressCalled := env.hasCallback, newStatus := some st,
        timestampUsed := some ts, mirrorWritten := mirror, upsertCalled := true,
        catalogue := upsertRow cat relPath { hash := newHash, status := st, lastUpdated := ts },
        snap := snap }

/-- Embeds `ProcessBackupFile::Execute` (File Processor, one file).
Follows the C++ control flow line by line: relative path, hash, catalogue
read (`Deleted` prior treated as no prior), three-way branch
Added/Modified/Unchanged with mirror and snapshot effects, then upsert and
progress report. -/
def processBackupFileExecute (historyRoot : String) (env : ExecEnv)
    (cat : Catalogue) (snap : SnapState) : ExecResult :=
  match env.relPathResult with
  | none => execFail cat snap
  | some rp0 =>
    let relPath := effectiveRelPath env.fileName rp0
    match env.hashResult with
    | none => execFail cat snap
    | some newHash =>
      if env.getThrows then execFail cat snap
      else
        let prior := getFileState cat relPath
        let hasRecord := priorUsable prior
        let storedHash := match prior with | some r => r.hash | none => ""
        let storedTimestamp := match prior with | some r => r.lastUpdated | none => ""
        if hasRecord = false then
          execUpsertAndReport env cat snap relPath newHash ChangeType.Added env.now true
        else if newHash ≠ storedHash then
          match getOrCreateSnapshot historyRoot env.now env.snapshotThrows snap with
          | none => execFail cat snap
          | some (_, snap') =>
              execUpsertAndReport env cat snap' relPath newHash ChangeType.Modified env.now true
        else
          execUpsertAndReport env cat snap relPath newHash ChangeType.Unchanged
            storedTimestamp false

theorem getFileState_upsertRow (cat : Catalogue) (path : String) (r : FileRecord) :
    getFileState (upsertRow cat path r) path = some r := by
  induction cat with
  | nil => simp [upsertRow, getFileState]
  | cons e rest ih =>
      by_cases hp : e.1 = path
      · simp [upsertRow, hp, getFileState]
      · simp [upsertRow, hp, getFileState, ih]

theorem execUpsertAndReport_fields (env : ExecEnv) (cat : Catalogue) (snap : SnapState)
    (relPath nh : String) (st : ChangeType) (ts : String) (m : Bool) :
    (execUpsertAndReport env cat snap relPath nh st ts m).newStatus = some st ∧
    (execUpsertAndReport env cat snap relPath nh st ts m).timestampUsed = some ts ∧
    (execUpsertAndReport env cat snap relPath nh st ts m).mirrorWritten = m ∧
    (execUpsertAndReport env cat snap relPath nh st ts m).upsertCalled = true ∧
    (execUpsertAndReport env cat snap relPath nh st ts m).snap = snap := by
  cases h : env.upsertOutcome <;> simp [execUpsertAndReport, h]

theorem execUpsertAndReport_catalogue_ok (env : ExecEnv) (cat : Catalogue) (snap : SnapState)
    (relPath nh : String) (st : ChangeType) (ts : String) (m : Bool)
    (h : env.upsertOutcome = RepoOutcome.ok) :
    (execUpsertAndReport env cat snap relPath nh st ts m).catalogue =
      upsertRow cat relPath { hash := nh, status := st, lastUpdated := ts } := by
  simp [execUpsertAndReport, h]

theorem execUpsertAndReport_progress (env : ExecEnv) (cat : Catalogue) (snap : SnapState)
    (relPath nh : String) (st : ChangeType) (ts : String) (m : Bool)
    (h : (execUpsertAndReport env cat snap relPath nh st ts m).progressCalled = true) :
    (execUpsertAndReport env cat snap relPath nh st ts m).success = true ∨
      env.upsertOutcome = RepoOutcome.fails := by
  cases ho : env.upsertOutcome <;> simp [execUpsertAndReport, ho] at h ⊢

theorem processBackupFileExecute_added_case
    (historyRoot : String) (env : ExecEnv) (cat : Catalogue) (snap : SnapState)
    (rp nh : String)
    (h1 : env.relPathResult = some rp)
    (h2 : env.hashResult = some nh)
    (h3 : env.getThrows = false)
    (hpr : priorUsable (getFileState cat (effectiveRelPath env.fileName rp)) = false) :
    processBackupFileExecute historyRoot env cat snap =
      execUpsertAndReport env cat snap (effectiveRelPath env.fileName rp) nh
        ChangeType.Added env.now true := by
  simp [processBackupFileExecute, h1, h2, h3, hpr]

theorem processBackupFileExecute_unchanged_case
    (historyRoot : String) (env : ExecEnv) (cat : Catalogue) (snap : SnapState)
    (rp nh : String) (r : FileRecord)
    (h1 : env.relPathResult = some rp)
    (h2 : env.hashResult = some nh)
    (h3 : env.getThrows = false)
    (h4 : getFileState cat (effectiveRelPath env.fileName rp) = some r)
    (hpr : priorUsable (some r) = true)
    (h6 : nh = r.hash) :
    processBackupFileExecute historyRoot env cat snap =
      execUpsertAndReport env cat snap (effectiveRelPath env.fileName rp) nh
        ChangeType.Unchanged r.lastUpdated false := by
  simp [processBackupFileExecute, h1, h2, h3, h4, hpr, h6]

theorem processBackupFileExecute_modified_case
    (historyRoot : String) (env : ExecEnv) (cat : Catalogue) (snap : SnapState)
    (rp nh : String) (r : FileRecord)
    (h1 : env.relPathResult = some rp)
    (h2 : env.hashResult = some nh)
    (h3 : env.getThrows = false)
    (h4 : getFileState cat (effectiveRelPath env.fileName rp) = some r)
    (hpr : priorUsable (some r) = true)
    (h6 : nh ≠ r.hash) :
    processBackupFileExecute historyRoot env cat snap =
      match getOrCreateSnapshot historyRoot env.now env.snapshotThrows snap with
      | none => execFail cat snap
      | some (_, snap') =>
          execUpsertAndReport env cat snap' (effectiveRelPath env.fileName rp) nh
            ChangeType.Modified env.now true := by
  simp [processBackupFileExecute, h1, h2, h3, h4, hpr, h6]

/-- C1: a prior catalogue entry with status `Deleted` is treated as absent:
the file is classified `Added` (whatever the new hash, identical bytes
included), and when the upsert succeeds the path is recorded with status
`Added` and a fresh timestamp. -/
theorem C1_deleted_prior_classified_added
    (historyRoot : String) (env : ExecEnv) (cat : Catalogue) (snap : SnapState)
    (rp nh : String) (r : FileRecord)
    (h1 : env.relPathResult = some rp)
    (h2 : env.hashResult = some nh)
    (h3 : env.getThrows = false)
    (h4 : getFileState cat (effectiveRelPath env.fileName rp) = some r)
    (h5 : r.status = ChangeType.Deleted) :
    (processBackupFileExecute historyRoot env cat snap).newStatus = some ChangeType.Added ∧
    (env.upsertOutcome = RepoOutcome.ok →
      getFileState (processBackupFileExecute historyRoot env cat snap).catalogue
          (effectiveRelPath env.fileName rp) =
        some { hash := nh, status := ChangeType.Added, lastUpdated := env.now }) := by
  have hpr : priorUsable (getFileState cat (effectiveRelPath env.fileName rp)) = false := by
    rw [h4]; simp [priorUsable, h5]
  rw [processBackupFileExecute_added_case historyRoot env cat snap rp nh h1 h2 h3 hpr]
  constructor
  · exact (execUpsertAndReport_fields env cat snap _ nh ChangeType.Added env.now true).1
  · intro hok
    rw [execUpsertAndReport_catalogue_ok _ _ _ _ _ _ _ _ hok]
    exact getFileState_upsertRow _ _ _

theorem C1_deleted_prior_classified_added_witness :
    (processBackupFileExecute "H"
        { relPathResult := some "a.txt", fileName := "a.txt", hashResult := some "ab12",
          getThrows := false, snapshotThrows := false, upsertOutcome := RepoOutcome.ok,
          now := "t1", hasCallback := true }
        [("a.txt", ⟨"ab12", ChangeType.Deleted, "t0"⟩)] ⟨none, 0⟩).newStatus =
      some ChangeType.Added ∧
    (RepoOutcome.ok = RepoOutcome.ok →
      getFileState (processBackupFileExecute "H"
          { relPathResult := some "a.txt", fileName := "a.txt", hashResult := some "ab12",
            getThrows := false, snapshotThrows := false, upsertOutcome := RepoOutcome.ok,
            now := "t1", hasCallback := true }
          [("a.txt", ⟨"ab12", ChangeType.Deleted, "t0"⟩)] ⟨none, 0⟩).catalogue
          (effectiveRelPath "a.txt" "a.txt") =
        some { hash := "ab12", status := ChangeType.Added, lastUpdated := "t1" }) :=
  C1_deleted_prior_classified_added "H"
    { relPathResult := some "a.txt", fileName := "a.txt", hashResult := some "ab12",
      getThrows := false, snapshotThrows := false, upsertOutcome := RepoOutcome.ok,
      now := "t1", hasCallback := true }
    [("a.txt", ⟨"ab12", ChangeType.Deleted, "t0"⟩)] ⟨none, 0⟩
    "a.txt" "ab12" ⟨"ab12", ChangeType.Deleted, "t0"⟩
    rfl rfl rfl (by decide) rfl

/-- C2 counterexample: a file whose catalogue upsert returns `false` is a
failed file (the success flag is stored `false`), yet the `"collecting"`
progress callback is still invoked for it. -/
theorem C2_counterexample :
    (processBackupFileExecute "H"
        { relPathResult := some "a.txt", fileName := "a.txt", hashResult := some "ab12",
          getThrows := false, snapshotThrows := false, upsertOutcome := RepoOutcome.fails,
          now := "t1", hasCallback := true } [] ⟨none, 0⟩).success = false ∧
    (processBackupFileExecute "H"
        { relPathResult := some "a.txt", fileName := "a.txt", hashResult := some "ab12",
          getThrows := false, snapshotThrows := false, upsertOutcome := RepoOutcome.fails,
          now := "t1", hasCallback := true } [] ⟨none, 0⟩).progressCalled = true := by
  decide

/-- C2 amended: the progress callback is suppressed for files that fail at
relative-path computation, hashing, the catalogue read, snapshot-directory
creation, or a throwing upsert — but a file whose upsert merely returns
`false` is marked failed and still reported. Hence: whenever the callback
fires, either the file succeeded or the failure was a non-throwing
catalogue-upsert failure. -/
theorem C2_progress_implies_success_or_upsert_returned_false
    (historyRoot : String) (env : ExecEnv) (cat : Catalogue) (snap : SnapState)
    (h : (processBackupFileExecute historyRoot env cat snap).progressCalled = true) :
    (processBackupFileExecute historyRoot env cat snap).success = true ∨
      env.upsertOutcome = RepoOutcome.fails := by
  revert h
  unfold processBackupFileExecute
  cases henv : env.relPathResult with
  | none => intro h; simp [execFail] at h
  | some rp =>
    cases hh : env.hashResult with
    | none => intro h; simp [execFail] at h
    | some nh =>
      by_cases hg : env.getThrows
      · intro h; simp [hg, execFail] at h
      · simp only [hg, if_false, Bool.false_eq_true]
        split
        · exact execUpsertAndReport_progress _ _ _ _ _ _ _ _
        · split
          · split
            · intro h; simp [execFail] at h
            · exact execUpsertAndReport_progress _ _ _ _ _ _ _ _
          · exact execUpsertAndReport_progress _ _ _ _ _ _ _ _

theorem C2_progress_implies_success_or_upsert_returned_false_witness :
    (processBackupFileExecute "H"
        { relPathResult := some "a.txt", fileName := "a.txt", hashResult := some "ab12",
          getThrows := false, snapshotThrows := false, upsertOutcome := RepoOutcome.ok,
          now := "t1", hasCallback := true } [] ⟨none, 0⟩).success = true ∨
      RepoOutcome.ok = RepoOutcome.fails :=
  C2_progress_implies_success_or_upsert_returned_false "H"
    { relPathResult := some "a.txt", fileName := "a.txt", hashResult := some "ab12",
      getThrows := false, snapshotThrows := false, upsertOutcome := RepoOutcome.ok,
      now := "t1", hasCallback := true } [] ⟨none, 0⟩ (by decide)

/-- C4 counterexample: for an `Unchanged` file (non-Deleted prior, equal
hash) the catalogue entry IS written: `UpdateFileState` is invoked
unconditionally and the row's stored status changes (here from `Added` to
`Unchanged`), so "no write occurs to the catalogue entry" is false. -/
theorem C4_counterexample :
    (processBackupFileExecute "H"
        { relPathResult := some "a.txt", fileName := "a.txt", hashResult := some "ab12",
          getThrows := false, snapshotThrows := false, upsertOutcome := RepoOutcome.ok,
          now := "t1", hasCallback := true }
        [("a.txt", ⟨"ab12", ChangeType.Added, "t0"⟩)] ⟨none, 0⟩).upsertCalled = true ∧
    getFileState (processBackupFileExecute "H"
        { relPathResult := some "a.txt", fileName := "a.txt", hashResult := some "ab12",
          getThrows := false, snapshotThrows := false, upsertOutcome := RepoOutcome.ok,
          now := "t1", hasCallback := true }
        [("a.txt", ⟨"ab12", ChangeType.Added, "t0"⟩)] ⟨none, 0⟩).catalogue "a.txt" =
      some ⟨"ab12", ChangeType.Unchanged, "t0"⟩ ∧
    getFileState [("a.txt", (⟨"ab12", ChangeType.Added, "t0"⟩ : FileRecord))] "a.txt" =
      some ⟨"ab12", ChangeType.Added, "t0"⟩ := by
  decide

/-- C4 amended: when a file is classified `Unchanged`, the new timestamp
equals the prior entry's timestamp and the mirror file is not written, but
the catalogue upsert is still performed: the row is rewritten with the same
hash and timestamp values and status `Unchanged`. -/
theorem C4_unchanged_keeps_timestamp_and_mirror_but_upserts
    (historyRoot : String) (env : ExecEnv) (cat : Catalogue) (snap : SnapState)
    (rp nh : String) (r : FileRecord)
    (h1 : env.relPathResult = some rp)
    (h2 : env.hashResult = some nh)
    (h3 : env.getThrows = false)
    (h4 : getFileState cat (effectiveRelPath env.fileName rp) = some r)
    (h5 : r.status ≠ ChangeType.Deleted)
    (h6 : nh = r.hash) :
    (processBackupFileExecute historyRoot env cat snap).newStatus = some ChangeType.Unchanged ∧
    (processBackupFileExecute historyRoot env cat snap).timestampUsed = some r.lastUpdated ∧
    (processBackupFileExecute historyRoot env cat snap).mirrorWritten = false ∧
    (processBackupFileExecute historyRoot env cat snap).upsertCalled = true ∧
    (env.upsertOutcome = RepoOutcome.ok →
      getFileState (processBackupFileExecute historyRoot env cat snap).catalogue
          (effectiveRelPath env.fileName rp) =
        some { hash := nh, status := ChangeType.Unchanged, lastUpdated := r.lastUpdated }) := by
  have hpr : priorUsable (some r) = true := by
    simp [priorUsable, h5]
  rw [processBackupFileExecute_unchanged_case historyRoot env cat snap rp nh r h1 h2 h3 h4 hpr h6]
  refine ⟨?_, ?_, ?_, ?_, ?_⟩
  · exact (execUpsertAndReport_fields env cat snap _ nh ChangeType.Unchanged r.lastUpdated false).1
  · exact (execUpsertAndReport_fields env cat snap _ nh ChangeType.Unchanged r.lastUpdated false).2.1
  · exact (execUpsertAndReport_fields env cat snap _ nh ChangeType.Unchanged r.lastUpdated false).2.2.1
  · exact (execUpsertAndReport_fields env cat snap _ nh ChangeType.Unchanged r.lastUpdated false).2.2.2.1
  · intro hok
    rw [execUpsertAndReport_catalogue_ok _ _ _ _ _ _ _ _ hok]
    exact getFileState_upsertRow _ _ _

theorem C4_unchanged_keeps_timestamp_and_mirror_but_upserts_witness :
    (processBackupFileExecute "H"
        { relPathResult := some "b.txt", fileName := "b.txt", hashResult := some "cd34",
          getThrows := false, snapshotThrows := false, upsertOutcome := RepoOutcome.ok,
          now := "t9", hasCallback := true }
        [("b.txt", ⟨"cd34", ChangeType.Modified, "t2"⟩)] ⟨none, 0⟩).newStatus =
      some ChangeType.Unchanged ∧
    (processBackupFileExecute "H"
        { relPathResult := some "b.txt", fileName := "b.txt", hashResult := some "cd34",
          getThrows := false, snapshotThrows := false, upsertOutcome := RepoOutcome.ok,
          now := "t9", hasCallback := true }
        [("b.txt", ⟨"cd34", ChangeType.Modified, "t2"⟩)] ⟨none, 0⟩).timestampUsed = some "t2" ∧
    (processBackupFileExecute "H"
        { relPathResult := some "b.txt", fileName := "b.txt", hashResult := some "cd34",
          getThrows := false, snapshotThrows := false, upsertOutcome := RepoOutcome.ok,
          now := "t9", hasCallback := true }
        [("b.txt", ⟨"cd34", ChangeType.Modified, "t2"⟩)] ⟨none, 0⟩).mirrorWritten = false ∧
    (processBackupFileExecute "H"
        { relPathResult := some "b.txt", fileName := "b.txt", hashResult := some "cd34",
          getThrows := false, snapshotThrows := false, upsertOutcome := RepoOutcome.ok,
          now := "t9", hasCallback := true }
        [("b.txt", ⟨"cd34", ChangeType.Modified, "t2"⟩)] ⟨none, 0⟩).upsertCalled = true ∧
    (RepoOutcome.ok = RepoOutcome.ok →
      getFileState (processBackupFileExecute "H"
          { relPathResult := some "b.txt", fileName := "b.txt", hashResult := some "cd34",
            getThrows := false, snapshotThrows := false, upsertOutcome := RepoOutcome.ok,
            now := "t9", hasCallback := true }
          [("b.txt", ⟨"cd34", ChangeType.Modified, "t2"⟩)] ⟨none, 0⟩).catalogue
          (effectiveRelPath "b.txt" "b.txt") =
        some { hash := "cd34", status := ChangeType.Unchanged, lastUpdated := "t2" }) :=
  C4_unchanged_keeps_timestamp_and_mirror_but_upserts "H"
    { relPathResult := some "b.txt", fileName := "b.txt", hashResult := some "cd34",
      getThrows := false, snapshotThrows := false, upsertOutcome := RepoOutcome.ok,
      now := "t9", hasCallback := true }
    [("b.txt", ⟨"cd34", ChangeType.Modified, "t2"⟩)] ⟨none, 0⟩
    "b.txt" "cd34" ⟨"cd34", ChangeType.Modified, "t2"⟩
    rfl rfl rfl (by decide) (by decide) rfl

/-- Environment of the deletion sweep: what the filesystem and repository
answer for each tracked path. -/
structure SweepEnv where
  /-- `fs::exists(sourceFolderPath / path)`. -/
  sourceExists : String → Bool
  /-- `fs::exists(backupFolderPath / path)`. -/
  backupExists : String → Bool
  /-- whether the best-effort `fs::copy_file` into the snapshot succeeds
  (its error code is ignored by the code). -/
  copyOk : String → Bool
  /-- `GetOrCreate` throws when this path triggers first creation. -/
  snapshotThrowsAt : String → Bool
  /-- result of `MarkFileAsDeleted` (throwing and returning `false` both
  set failure and break, so they land in the same branch). -/
  markOutcome : String → RepoOutcome
  now : String
  hasCallback : Bool

/-- State threaded through `ProcessDeletedFiles::Execute`'s loop, plus the
observable filesystem effects. -/
structure SweepState where
  catalogue : Catalogue
  snap : SnapState
  /-- loop still running (`break` not taken). -/
  active : Bool
  success : Bool
  /-- paths whose mirror copy `backup/<path>` was removed (`fs::remove`). -/
  removed : List String
  /-- attempted archive copies `(path, copy succeeded)`. -/
  copyAttempts : List (String × Bool)
  /-- `"deleted"` progress events. -/
  deletedEvents : List String

/-- Embeds the loop body of `ProcessDeletedFiles::Execute` (lines 30-84):
skip `Deleted` rows and rows whose source still exists; otherwise obtain
the snapshot directory (throw breaks the loop), archive the mirror copy
best-effort when it exists, remove the mirror copy unconditionally, then
mark the row deleted (failure breaks the loop) and report. -/
def sweepStep (historyRoot : String) (env : SweepEnv) (st : SweepState)
    (entry : String × ChangeType) : SweepState :=
  if st.active = false then st
  else if entry.2 = ChangeType.Deleted then st
  else if env.sourceExists entry.1 then st
  else
    match getOrCreateSnapshot historyRoot env.now (env.snapshotThrowsAt entry.1) st.snap with
    | none => { st with active := false, success := false }
    | some (_, snap') =>
        let copyAttempts' :=
          if env.backupExists entry.1 then st.copyAttempts ++ [(entry.1, env.copyOk entry.1)]
          else st.copyAttempts
        let removed' := st.removed ++ [entry.1]
        match env.markOutcome entry.1 with
        | RepoOutcome.ok =>
            { catalogue := markRowDeleted st.catalogue entry.1 env.now, snap := snap',
              active := st.active, success := st.success, removed := removed',
              copyAttempts := copyAttempts',
              deletedEvents :=
                if env.hasCallback then st.deletedEvents ++ [entry.1] else st.deletedEvents }
        | _ =>
            { catalogue := st.catalogue, snap := snap', active := false, success := false,
              removed := removed', copyAttempts := copyAttempts',
              deletedEvents := st.deletedEvents }

/-- Embeds `ProcessDeletedFiles::Execute`: `GetAllFileStatuses` reads every
`(path, status)` row once, then the loop above runs over that listing. -/
def processDeletedFilesExecute (historyRoot : String) (env : SweepEnv)
    (cat : Catalogue) (snap : SnapState) : SweepState :=
  let entries := cat.map (fun e => (e.1, e.2.status))
  entries.foldl (sweepStep historyRoot env)
    { catalogue := cat, snap := snap, active := true, success := true,
      removed := [], copyAttempts := [], deletedEvents := [] }

/-- Run-level accumulator for the worker phase: catalogue, snapshot cell,
AND-accumulated success flag, and the classifications recorded in
processing order. -/
structure RunAcc where
  catalogue : Catalogue
  snap : SnapState
  success : Bool
  statuses : List ChangeType

/-- One queue item processed by a worker (`processBackupFile.Execute`). -/
def runFilesStep (historyRoot : String) (acc : RunAcc) (env : ExecEnv) : RunAcc :=
  let r := processBackupFileExecute historyRoot env acc.catalogue acc.snap
  { catalogue := r.catalogue, snap := r.snap, success := acc.success && r.success,
    statuses := acc.statuses ++ (match r.newStatus with | some c => [c] | none => []) }

/-- The drain of the work queue, serialized (the catalogue is linearizable
per path and the snapshot cell single-assignment, so the run-level facts
proved below are about this logical order). -/
def runFiles (historyRoot : String) (envs : List ExecEnv) (acc : RunAcc) : RunAcc :=
  envs.foldl (runFilesStep historyRoot) acc

/-- Embeds `RunBackup`'s processing phase followed by the sweep, which runs
only when the success flag is still true. -/
def runBackupModel (historyRoot : String) (envs : List ExecEnv) (senv : SweepEnv)
    (cat : Catalogue) : RunAcc × SweepState :=
  let acc := runFiles historyRoot envs
    { catalogue := cat, snap := ⟨none, 0⟩, success := true, statuses := [] }
  if acc.success = true then
    (acc, processDeletedFilesExecute historyRoot senv acc.catalogue acc.snap)
  else
    (acc, { catalogue := acc.catalogue, snap := acc.snap, active := false,
            success := acc.success, removed := [], copyAttempts := [], deletedEvents := [] })

/-- The one-shot snapshot cell is in one of exactly two shapes: never
demanded (no directory created) or created exactly once. -/
def SnapInv (s : SnapState) : Prop :=
  (s.path = none ∧ s.creations = 0) ∨ (∃ p, s.path = some p ∧ s.creations = 1)

theorem getOrCreateSnapshot_inv (historyRoot now : String) (thr : Bool)
    (s : SnapState) (q : String) (s' : SnapState)
    (h : getOrCreateSnapshot historyRoot now thr s = some (q, s'))
    (hinv : SnapInv s) : SnapInv s' := by
  unfold getOrCreateSnapshot at h
  cases hp : s.path with
  | some p => rw [hp] at h; simp at h; rw [← h.2]; exact hinv
  | none =>
      rw [hp] at h
      cases thr with
      | true => simp at h
      | false =>
          simp at h
          rcases hinv with ⟨_, hc⟩ | ⟨p, hps, _⟩
          · right
            refine ⟨historyRoot ++ "/" ++ now, ?_, ?_⟩
            · rw [← h.2]
            · rw [← h.2]
              simp [hc]
          · rw [hp] at hps; exact absurd hps (by simp)

theorem execFail_snap (cat : Catalogue) (snap : SnapState) :
    (execFail cat snap).snap = snap := rfl

theorem processBackupFileExecute_snapInv (historyRoot : String) (env : ExecEnv)
    (cat : Catalogue) (snap : SnapState) (hinv : SnapInv snap) :
    SnapInv (processBackupFileExecute historyRoot env cat snap).snap := by
  unfold processBackupFileExecute
  dsimp only []
  repeat' split
  all_goals
    first
      | exact hinv
      | (rw [(execUpsertAndReport_fields _ _ _ _ _ _ _ _).2.2.2.2]; exact hinv)
      | (rename_i heq
         rw [(execUpsertAndReport_fields _ _ _ _ _ _ _ _).2.2.2.2]
         exact getOrCreateSnapshot_inv _ _ _ _ _ _ heq hinv)

theorem runFiles_snapInv (historyRoot : String) (envs : List ExecEnv) (acc : RunAcc)
    (hinv : SnapInv acc.snap) : SnapInv (runFiles historyRoot envs acc).snap := by
  induction envs generalizing acc with
  | nil => exact hinv
  | cons e es ih =>
      simp only [runFiles, List.foldl_cons] at ih ⊢
      exact ih _ (processBackupFileExecute_snapInv _ _ _ _ hinv)

theorem sweepStep_snapInv (historyRoot : String) (env : SweepEnv) (st : SweepState)
    (entry : String × ChangeType) (hinv : SnapInv st.snap) :
    SnapInv (sweepStep historyRoot env st entry).snap := by
  unfold sweepStep
  dsimp only []
  repeat' split
  all_goals
    first
      | exact hinv
      | exact getOrCreateSnapshot_inv _ _ _ _ _ _ (by assumption) hinv

theorem sweepFold_snapInv (historyRoot : String) (env : SweepEnv)
    (entries : List (String × ChangeType)) (st : SweepState) (hinv : SnapInv st.snap) :
    SnapInv (entries.foldl (sweepStep historyRoot env) st).snap := by
  induction entries generalizing st with
  | nil => exact hinv
  | cons e es ih =>
      simp only [List.foldl_cons]
      exact ih _ (sweepStep_snapInv _ _ _ _ hinv)

theorem runBackupModel_fst (historyRoot : String) (envs : List ExecEnv) (senv : SweepEnv)
    (cat : Catalogue) :
    (runBackupModel historyRoot envs senv cat).1 =
      runFiles historyRoot envs
        { catalogue := cat, snap := ⟨none, 0⟩, success := true, statuses := [] } := by
  unfold runBackupModel
  dsimp only []
  split <;> rfl

theorem runBackupModel_snapInv (historyRoot : String) (envs : List ExecEnv)
    (senv : SweepEnv) (cat : Catalogue) :
    SnapInv (runBackupModel historyRoot envs senv cat).2.snap := by
  have hacc : SnapInv (runFiles historyRoot envs
      { catalogue := cat, snap := ⟨none, 0⟩, success := true, statuses := [] }).snap :=
    runFiles_snapInv _ _ _ (Or.inl ⟨rfl, rfl⟩)
  unfold runBackupModel
  dsimp only []
  split
  · exact sweepFold_snapInv _ _ _ _ hacc
  · exact hacc

theorem processBackupFileExecute_snap_unchanged (historyRoot : String) (env : ExecEnv)
    (cat : Catalogue) (snap : SnapState)
    (h : (processBackupFileExecute historyRoot env cat snap).newStatus ≠
      some ChangeType.Modified) :
    (processBackupFileExecute historyRoot env cat snap).snap = snap := by
  revert h
  unfold processBackupFileExecute
  dsimp only []
  repeat' split
  all_goals
    first
      | (intro _; rfl)
      | (intro _; exact (execUpsertAndReport_fields _ _ _ _ _ _ _ _).2.2.2.2)
      | (intro h; exact absurd (execUpsertAndReport_fields _ _ _ _ _ _ _ _).1 h)

theorem runFiles_statuses_mem (historyRoot : String) (envs : List ExecEnv) (acc : RunAcc)
    (c : ChangeType) (h : c ∈ acc.statuses) :
    c ∈ (runFiles historyRoot envs acc).statuses := by
  induction envs generalizing acc with
  | nil => exact h
  | cons e es ih =>
      simp only [runFiles, List.foldl_cons] at ih ⊢
      apply ih
      simp only [runFilesStep]
      exact List.mem_append_left _ h

theorem runFiles_cons (historyRoot : String) (e : ExecEnv) (es : List ExecEnv) (acc : RunAcc) :
    runFiles historyRoot (e :: es) acc = runFiles historyRoot es (runFilesStep historyRoot acc e) :=
  rfl

theorem runFiles_snap_unchanged (historyRoot : String) (envs : List ExecEnv) (acc : RunAcc)
    (h : ChangeType.Modified ∉ (runFiles historyRoot envs acc).statuses) :
    (runFiles historyRoot envs acc).snap = acc.snap := by
  induction envs generalizing acc with
  | nil => rfl
  | cons e es ih =>
      rw [runFiles_cons] at h ⊢
      have hstep : ChangeType.Modified ∉ (runFilesStep historyRoot acc e).statuses := by
        intro hc
        exact h (runFiles_statuses_mem _ _ _ _ hc)
      have hown : (processBackupFileExecute historyRoot e acc.catalogue acc.snap).newStatus ≠
          some ChangeType.Modified := by
        intro hc
        apply hstep
        simp only [runFilesStep, hc]
        exact List.mem_append_right _ (by simp)
      have hsnap := processBackupFileExecute_snap_unchanged historyRoot e acc.catalogue acc.snap hown
      rw [ih (runFilesStep historyRoot acc e) h]
      exact hsnap

theorem sweepStep_skip (historyRoot : String) (env : SweepEnv) (st : SweepState)
    (entry : String × ChangeType)
    (h : entry.2 = ChangeType.Deleted ∨ env.sourceExists entry.1 = true) :
    sweepStep historyRoot env st entry = st := by
  unfold sweepStep
  by_cases ha : st.active = false
  · rw [if_pos ha]
  · rw [if_neg ha]
    rcases h with h | h
    · rw [if_pos h]
    · by_cases hd : entry.2 = ChangeType.Deleted
      · rw [if_pos hd]
      · rw [if_neg hd, if_pos h]

theorem sweepFold_noop (historyRoot : String) (env : SweepEnv)
    (entries : List (String × ChangeType)) (st : SweepState)
    (h : ∀ e ∈ entries, e.2 = ChangeType.Deleted ∨ env.sourceExists e.1 = true) :
    entries.foldl (sweepStep historyRoot env) st = st := by
  induction entries generalizing st with
  | nil => rfl
  | cons e es ih =>
      simp only [List.foldl_cons]
      rw [sweepStep_skip _ _ _ _ (h e (by simp))]
      exact ih _ (fun x hx => h x (by simp [hx]))

/-- C3: within a run the snapshot cell behaves lazily and at most once:
a first `GetOrCreate` creates `historyRoot/<timestamp>`, every later call
returns the cached path without touching the filesystem, over a whole run
at most one directory is ever created, and when no file is classified
`Modified` and the sweep finds no tracked file missing from the source,
no snapshot directory is created at all. -/
theorem C3_snapshot_lazy_once_minimal (historyRoot : String) (envs : List ExecEnv)
    (senv : SweepEnv) (cat : Catalogue) :
    (∀ (now : String) (thr : Bool) (s : SnapState) (p : String),
      s.path = some p → getOrCreateSnapshot historyRoot now thr s = some (p, s)) ∧
    (∀ (now : String) (c : Nat),
      getOrCreateSnapshot historyRoot now false ⟨none, c⟩ =
        some (historyRoot ++ "/" ++ now, ⟨some (historyRoot ++ "/" ++ now), c + 1⟩)) ∧
    (runBackupModel historyRoot envs senv cat).2.snap.creations ≤ 1 ∧
    (ChangeType.Modified ∉ (runBackupModel historyRoot envs senv cat).1.statuses →
      (∀ e ∈ (runBackupModel historyRoot envs senv cat).1.catalogue,
        e.2.status = ChangeType.Deleted ∨ senv.sourceExists e.1 = true) →
      (runBackupModel historyRoot envs senv cat).2.snap.creations = 0) := by
  refine ⟨?_, ?_, ?_, ?_⟩
  · intro now thr s p hp
    unfold getOrCreateSnapshot
    rw [hp]
  · intro now c
    unfold getOrCreateSnapshot
    rfl
  · rcases runBackupModel_snapInv historyRoot envs senv cat with ⟨_, hc⟩ | ⟨p, _, hc⟩ <;>
      simp [hc]
  · intro hmod hsrc
    rw [runBackupModel_fst] at hmod hsrc
    have hsnap := runFiles_snap_unchanged historyRoot envs
      { catalogue := cat, snap := ⟨none, 0⟩, success := true, statuses := [] } hmod
    unfold runBackupModel
    dsimp only []
    split
    · unfold processDeletedFilesExecute
      rw [sweepFold_noop]
      · simpa using congrArg SnapState.creations hsnap
      · intro e he
        simp only [List.mem_map] at he
        obtain ⟨x, hx, hxe⟩ := he
        rcases hsrc x hx with h | h
        · left; rw [← hxe]; exact h
        · right; rw [← hxe]; exact h
    · simpa using congrArg SnapState.creations hsnap

/-- A sample sweep environment where every tracked source file still
exists, used to exercise C3 on a concrete run. -/
def c3SweepEnv : SweepEnv :=
  { sourceExists := fun _ => true, backupExists := fun _ => true,
    copyOk := fun _ => true, snapshotThrowsAt := fun _ => false,
    markOutcome := fun _ => RepoOutcome.ok, now := "t1", hasCallback := true }

/-- A sample per-file environment (fresh file, everything succeeds), used
to exercise C3 on a concrete run. -/
def c3ExecEnv : ExecEnv :=
  { relPathResult := some "a.txt", fileName := "a.txt", hashResult := some "ab12",
    getThrows := false, snapshotThrows := false, upsertOutcome := RepoOutcome.ok,
    now := "t1", hasCallback := true }

theorem C3_snapshot_lazy_once_minimal_witness :
    getOrCreateSnapshot "H" "ts" false ⟨none, 0⟩ =
      some ("H" ++ "/" ++ "ts", ⟨some ("H" ++ "/" ++ "ts"), 0 + 1⟩) ∧
    getOrCreateSnapshot "H" "t2" true ⟨some "H/ts", 1⟩ = some ("H/ts", ⟨some "H/ts", 1⟩) ∧
    (runBackupModel "H" [c3ExecEnv] c3SweepEnv []).2.snap.creations ≤ 1 ∧
    (runBackupModel "H" [c3ExecEnv] c3SweepEnv []).2.snap.creations = 0 :=
  ⟨(C3_snapshot_lazy_once_minimal "H" [] c3SweepEnv []).2.1 "ts" 0,
   (C3_snapshot_lazy_once_minimal "H" [] c3SweepEnv []).1 "t2" true
     ⟨some "H/ts", 1⟩ "H/ts" rfl,
   (C3_snapshot_lazy_once_minimal "H" [c3ExecEnv] c3SweepEnv []).2.2.1,
   (C3_snapshot_lazy_once_minimal "H" [c3ExecEnv] c3SweepEnv []).2.2.2
     (by decide) (by decide)⟩

/-- C10: in the deletion sweep, once a tracked non-Deleted path's source
file is found absent (and the snapshot handle does not throw), the mirror
copy is removed unconditionally — for every value of "does the mirror
exist", "did the archive copy succeed" and "did the mark-deleted call
succeed", the path lands in the removed list. -/
theorem C10_mirror_removed_unconditionally (historyRoot : String) (env : SweepEnv)
    (st : SweepState) (p : String) (c : ChangeType)
    (ha : st.active = true)
    (hc : c ≠ ChangeType.Deleted)
    (hsrc : env.sourceExists p = false)
    (hsnap : st.snap.path.isSome ∨ env.snapshotThrowsAt p = false) :
    p ∈ (sweepStep historyRoot env st (p, c)).removed := by
  unfold sweepStep
  rw [ha]
  simp only [Bool.true_eq_false, if_false, hsrc]
  rw [if_neg (by simpa using hc)]
  have hsome : ∃ q s', getOrCreateSnapshot historyRoot env.now (env.snapshotThrowsAt p) st.snap =
      some (q, s') := by
    unfold getOrCreateSnapshot
    cases hps : st.snap.path with
    | some q => exact ⟨q, st.snap, rfl⟩
    | none =>
        rcases hsnap with h | h
        · rw [hps] at h; simp at h
        · rw [h]
          exact ⟨_, _, rfl⟩
  obtain ⟨q, s', heq⟩ := hsome
  rw [heq]
  cases hmo : env.markOutcome p <;>
    simp [hmo, List.mem_append]

theorem C10_mirror_removed_unconditionally_witness :
    "gone.txt" ∈ (sweepStep "H"
      { sourceExists := fun _ => false, backupExists := fun _ => false,
        copyOk := fun _ => false, snapshotThrowsAt := fun _ => false,
        markOutcome := fun _ => RepoOutcome.fails, now := "t1", hasCallback := true }
      { catalogue := [("gone.txt", ⟨"ab", ChangeType.Added, "t0"⟩)], snap := ⟨none, 0⟩,
        active := true, success := true, removed := [], copyAttempts := [],
        deletedEvents := [] }
      ("gone.txt", ChangeType.Added)).removed :=
  C10_mirror_removed_unconditionally "H"
    { sourceExists := fun _ => false, backupExists := fun _ => false,
      copyOk := fun _ => false, snapshotThrowsAt := fun _ => false,
      markOutcome := fun _ => RepoOutcome.fails, now := "t1", hasCallback := true }
    { catalogue := [("gone.txt", ⟨"ab", ChangeType.Added, "t0"⟩)], snap := ⟨none, 0⟩,
      active := true, success := true, removed := [], copyAttempts := [],
      deletedEvents := [] }
    "gone.txt" ChangeType.Added rfl (by decide) rfl (Or.inr rfl)

/-- State of `ThreadedFileQueue`: the FIFO of pending paths and the done
flag set by queue shutdown. -/
structure QueueState where
  items : List String
  done : Bool
deriving DecidableEq, Repr

/-- Embeds `threadCount = std::max(1u, std::thread::hardware_concurrency())`
from `RunBackup`. -/
def workerCount (hardwareConcurrency : Nat) : Nat := max 1 hardwareConcurrency

/-- Embeds `maxQueueSize = threadCount * MaxQueueSizeMultiplier` with
`MaxQueueSizeMultiplier = 4` from `RunBackup`. -/
def maxQueueSize (hardwareConcurrency : Nat) : Nat := workerCount hardwareConcurrency * 4

/-- Transitions of `ThreadedFileQueue` under its mutex: `Enqueue` waits on
the condition variable until `size < maxQueueSize` and only then pushes;
a worker pops the front when non-empty; shutdown sets the done flag. -/
inductive QueueStep (q : Nat) : QueueState → QueueState → Prop
  | enqueue (s : QueueState) (x : String) (h : s.items.length < q) :
      QueueStep q s ⟨s.items ++ [x], s.done⟩
  | dequeue (s : QueueState) (x : String) (rest : List String) (h : s.items = x :: rest) :
      QueueStep q s ⟨rest, s.done⟩
  | markDone (s : QueueState) : QueueStep q s ⟨s.items, true⟩

/-- States reachable from the freshly constructed queue (empty, not done). -/
inductive QueueReachable (q : Nat) : QueueState → Prop
  | init : QueueReachable q ⟨[], false⟩
  | step (s t : QueueState) (hs : QueueReachable q s) (st : QueueStep q s t) :
      QueueReachable q t

theorem queueStep_length (q : Nat) (t u : QueueState) (h : QueueStep q t u) :
    u.items.length ≤ q ∨ u.items.length ≤ t.items.length := by
  cases h with
  | enqueue x hlt =>
      left
      simp only [List.length_append, List.length_singleton]
      omega
  | dequeue x rest hx =>
      right
      rw [hx]
      simp only [List.length_cons]
      omega
  | markDone => right; simp

theorem queueReachable_length_le (q : Nat) (s : QueueState)
    (h : QueueReachable q s) : s.items.length ≤ q := by
  induction h with
  | init => simp
  | step s t hs hst ih =>
      rcases queueStep_length q s t hst with h | h
      · exact h
      · omega

/-- C8: with `W = max(1, availableParallelism)` workers the queue depth is
capped at `Q = 4·W`: no enqueue transition exists out of a full queue
(the producer blocks instead), hence every reachable queue state holds at
most `Q` items. -/
theorem C8_queue_bounded (hardwareConcurrency : Nat) (s : QueueState)
    (hreach : QueueReachable (maxQueueSize hardwareConcurrency) s) :
    s.items.length ≤ maxQueueSize hardwareConcurrency ∧
    maxQueueSize hardwareConcurrency = 4 * workerCount hardwareConcurrency ∧
    (∀ (t : QueueState) (x : String), t.items.length = maxQueueSize hardwareConcurrency →
      ¬ QueueStep (maxQueueSize hardwareConcurrency) t ⟨t.items ++ [x], t.done⟩) := by
  refine ⟨queueReachable_length_le _ _ hreach, Nat.mul_comm _ _, ?_⟩
  intro t x hfull hstep
  have h := queueStep_length _ _ _ hstep
  simp only [List.length_append, List.length_singleton] at h
  omega

theorem C8_queue_bounded_witness :
    (⟨[], false⟩ : QueueState).items.length ≤ maxQueueSize 2 ∧
    maxQueueSize 2 = 4 * workerCount 2 ∧
    (∀ (t : QueueState) (x : String), t.items.length = maxQueueSize 2 →
      ¬ QueueStep (maxQueueSize 2) t ⟨t.items ++ [x], t.done⟩) :=
  C8_queue_bounded 2 ⟨[], false⟩ QueueReachable.init

/-- One worker of the pool: how many queue items it still has to process
and an already incremented `processed` value not yet delivered through the
progress mutex. -/
structure Worker where
  remaining : Nat
  pending : Option Nat
deriving DecidableEq, Repr

/-- Global state of the reporting pipeline: the atomic counter, the
serialized stream of `processed` values the callback has seen, and the
workers. -/
structure CounterState where
  counter : Nat
  observed : List Nat
  workers : List Worker
deriving DecidableEq, Repr

/-- Interleaved semantics of `_onProgress({"collecting", ++_processedCount,
0, file})`: the atomic increment happens while building the callback
argument, before the progress mutex is acquired, so between a worker's
increment and its delivery other workers may increment and deliver. -/
inductive CounterStep : CounterState → CounterState → Prop
  | incr (s : CounterState) (i : Nat) (w : Worker)
      (hw : s.workers.get? i = some w) (hr : 0 < w.remaining) (hp : w.pending = none) :
      CounterStep s ⟨s.counter + 1, s.observed,
        s.workers.set i ⟨w.remaining - 1, some (s.counter + 1)⟩⟩
  | report (s : CounterState) (i : Nat) (w : Worker) (v : Nat)
      (hw : s.workers.get? i = some w) (hp : w.pending = some v) :
      CounterStep s ⟨s.counter, s.observed ++ [v], s.workers.set i ⟨w.remaining, none⟩⟩

/-- Fresh run: counter zero, nothing observed, each worker with its file
quota and nothing pending. -/
def initCounterState (files : List Nat) : CounterState :=
  ⟨0, [], files.map (fun n => ⟨n, none⟩)⟩

/-- States reachable in some interleaving of a run. -/
inductive CounterReachable (files : List Nat) : CounterState → Prop
  | init : CounterReachable files (initCounterState files)
  | step (s t : CounterState) (hs : CounterReachable files s) (st : CounterStep s t) :
      CounterReachable files t

/-- Boolean test for a strictly increasing sequence. -/
def strictlyIncreasingB : List Nat → Bool
  | [] => true
  | [_] => true
  | a :: b :: rest => (decide (a < b)) && strictlyIncreasingB (b :: rest)

/-- C9 counterexample: with two workers holding one file each, worker 1 can
increment to 1, worker 2 increment to 2 and win the progress mutex first;
the serialized callback stream is then `[2, 1]`, which is not strictly
increasing (a later value is less than an earlier one). -/
theorem C9_counterexample :
    CounterReachable [1, 1] ⟨2, [2, 1], [⟨0, none⟩, ⟨0, none⟩]⟩ ∧
    strictlyIncreasingB [2, 1] = false := by
  constructor
  · have s1 : CounterStep (initCounterState [1, 1]) ⟨1, [], [⟨0, some 1⟩, ⟨1, none⟩]⟩ :=
      CounterStep.incr (initCounterState [1, 1]) 0 ⟨1, none⟩ rfl (by decide) rfl
    have s2 : CounterStep ⟨1, [], [⟨0, some 1⟩, ⟨1, none⟩]⟩
        ⟨2, [], [⟨0, some 1⟩, ⟨0, some 2⟩]⟩ :=
      CounterStep.incr ⟨1, [], [⟨0, some 1⟩, ⟨1, none⟩]⟩ 1 ⟨1, none⟩ rfl (by decide) rfl
    have s3 : CounterStep ⟨2, [], [⟨0, some 1⟩, ⟨0, some 2⟩]⟩
        ⟨2, [2], [⟨0, some 1⟩, ⟨0, none⟩]⟩ :=
      CounterStep.report ⟨2, [], [⟨0, some 1⟩, ⟨0, some 2⟩]⟩ 1 ⟨0, some 2⟩ 2 rfl rfl
    have s4 : CounterStep ⟨2, [2], [⟨0, some 1⟩, ⟨0, none⟩]⟩
        ⟨2, [2, 1], [⟨0, none⟩, ⟨0, none⟩]⟩ :=
      CounterStep.report ⟨2, [2], [⟨0, some 1⟩, ⟨0, none⟩]⟩ 0 ⟨0, some 1⟩ 1 rfl rfl
    exact CounterReachable.step _ _
      (CounterReachable.step _ _
        (CounterReachable.step _ _
          (CounterReachable.step _ _ CounterReachable.init s1) s2) s3) s4
  · decide

/-- The `processed` values a state carries: already delivered ones plus the
incremented-but-undelivered ones held by workers. -/
def pendingVals (ws : List Worker) : List Nat := ws.filterMap Worker.pending

def allValsM (s : CounterState) : Multiset Nat :=
  (s.observed : Multiset Nat) + (pendingVals s.workers : Multiset Nat)

theorem pendingVals_cons (a : Worker) (t : List Worker) :
    pendingVals (a :: t) = a.pending.toList ++ pendingVals t := by
  cases h : a.pending <;> simp [pendingVals, List.filterMap_cons, h]

theorem pendingVals_set (ws : List Worker) (i : Nat) (w w' : Worker)
    (hw : ws.get? i = some w) :
    (pendingVals (ws.set i w') : Multiset Nat) + (w.pending.toList : Multiset Nat) =
      (pendingVals ws : Multiset Nat) + (w'.pending.toList : Multiset Nat) := by
  induction ws generalizing i with
  | nil => simp at hw
  | cons a t ih =>
      cases i with
      | zero =>
          simp only [List.get?] at hw
          injection hw with hw
          subst hw
          simp only [List.set, pendingVals_cons]
          simp only [← Multiset.coe_add]
          abel
      | succ j =>
          simp only [List.get?] at hw
          have hih := ih j hw
          simp only [List.set, pendingVals_cons]
          simp only [← Multiset.coe_add]
          calc (a.pending.toList : Multiset Nat) + (pendingVals (t.set j w') : Multiset Nat) +
                (w.pending.toList : Multiset Nat)
              = (a.pending.toList : Multiset Nat) +
                ((pendingVals (t.set j w') : Multiset Nat) +
                  (w.pending.toList : Multiset Nat)) := by abel
            _ = (a.pending.toList : Multiset Nat) +
                ((pendingVals t : Multiset Nat) + (w'.pending.toList : Multiset Nat)) := by
                  rw [hih]
            _ = (a.pending.toList : Multiset Nat) + (pendingVals t : Multiset Nat) +
                (w'.pending.toList : Multiset Nat) := by abel

/-- Invariant tying the counter to the values in flight: every value ever
produced is distinct and lies in `[1, counter]`. -/
def CounterInv (s : CounterState) : Prop :=
  (allValsM s).Nodup ∧ ∀ v ∈ allValsM s, 1 ≤ v ∧ v ≤ s.counter

theorem counterStep_inv (s t : CounterState) (h : CounterStep s t)
    (hinv : CounterInv s) : CounterInv t := by
  obtain ⟨hnd, hbd⟩ := hinv
  cases h with
  | incr i w hw hr hp =>
      have hset := pendingVals_set s.workers i w ⟨w.remaining - 1, some (s.counter + 1)⟩ hw
      rw [hp] at hset
      simp only [Option.toList] at hset
      have hall : allValsM ⟨s.counter + 1, s.observed,
          s.workers.set i ⟨w.remaining - 1, some (s.counter + 1)⟩⟩ =
          allValsM s + {s.counter + 1} := by
        unfold allValsM
        simp only at hset ⊢
        have : (pendingVals (s.workers.set i ⟨w.remaining - 1, some (s.counter + 1)⟩) :
            Multiset Nat) = (pendingVals s.workers : Multiset Nat) + {s.counter + 1} := by
          simpa using hset
        rw [this]
        abel
      constructor
      · rw [hall]
        have hnotmem : s.counter + 1 ∉ allValsM s := by
          intro hmem
          have := (hbd _ hmem).2
          omega
        rw [add_comm, Multiset.singleton_add]
        exact Multiset.nodup_cons.2 ⟨hnotmem, hnd⟩
      · intro v hv
        rw [hall] at hv
        simp only [Multiset.mem_add, Multiset.mem_singleton] at hv
        show 1 ≤ v ∧ v ≤ s.counter + 1
        rcases hv with hv | hv
        · obtain ⟨hb1, hb2⟩ := hbd v hv
          constructor <;> omega
        · subst hv
          constructor <;> omega
  | report i w v hw hp =>
      have hset := pendingVals_set s.workers i w ⟨w.remaining, none⟩ hw
      rw [hp] at hset
      simp only [Option.toList] at hset
      have hall : allValsM ⟨s.counter, s.observed ++ [v],
          s.workers.set i ⟨w.remaining, none⟩⟩ = allValsM s := by
        unfold allValsM
        have hpv : (pendingVals (s.workers.set i ⟨w.remaining, none⟩) : Multiset Nat) +
            {v} = (pendingVals s.workers : Multiset Nat) := by
          simpa using hset
        rw [← hpv]
        simp only [← Multiset.coe_add, Multiset.coe_singleton]
        abel
      refine ⟨?_, ?_⟩
      · show (allValsM ⟨s.counter, s.observed ++ [v],
            s.workers.set i ⟨w.remaining, none⟩⟩).Nodup
        rw [hall]
        exact hnd
      · intro u hu
        rw [hall] at hu
        exact hbd u hu

theorem pendingVals_init (files : List Nat) :
    pendingVals (files.map (fun n => ⟨n, none⟩)) = [] := by
  induction files with
  | nil => rfl
  | cons a t ih => simp [pendingVals_cons, ih]

theorem counterReachable_inv (files : List Nat) (s : CounterState)
    (h : CounterReachable files s) : CounterInv s := by
  induction h with
  | init =>
      refine ⟨?_, ?_⟩
      · show (allValsM (initCounterState files)).Nodup
        unfold allValsM initCounterState
        simp [pendingVals_init]
      · intro v hv
        unfold allValsM initCounterState at hv
        simp [pendingVals_init] at hv
  | step s t hs hst ih => exact counterStep_inv s t hst ih

/-- C9 amended: every `processed` value delivered through the serialized
callback stream is distinct and lies in `[1, counter]`; but because the
atomic increment precedes the mutex acquisition, the stream need not be
increasing (see the counterexample). -/
theorem C9_observed_values_distinct (files : List Nat) (s : CounterState)
    (h : CounterReachable files s) :
    s.observed.Nodup ∧ ∀ v ∈ s.observed, 1 ≤ v ∧ v ≤ s.counter := by
  obtain ⟨hnd, hbd⟩ := counterReachable_inv files s h
  constructor
  · have hle : (s.observed : Multiset Nat) ≤ allValsM s := by
      unfold allValsM
      exact Multiset.le_add_right _ _
    have := Multiset.nodup_of_le hle hnd
    simpa using this
  · intro v hv
    apply hbd
    unfold allValsM
    simp only [Multiset.mem_add]
    left
    simpa using hv

theorem C9_observed_values_distinct_witness :
    (⟨1, [1], [⟨0, none⟩]⟩ : CounterState).observed.Nodup ∧
    ∀ v ∈ (⟨1, [1], [⟨0, none⟩]⟩ : CounterState).observed,
      1 ≤ v ∧ v ≤ (⟨1, [1], [⟨0, none⟩]⟩ : CounterState).counter :=
  C9_observed_values_distinct [1] ⟨1, [1], [⟨0, none⟩]⟩
    (CounterReachable.step _ _
      (CounterReachable.step _ _ CounterReachable.init
        (CounterStep.incr (initCounterState [1]) 0 ⟨1, none⟩ rfl (by decide) rfl))
      (CounterStep.report ⟨1, [], [⟨0, some 1⟩]⟩ 0 ⟨0, some 1⟩ 1 rfl rfl))

/-- Filesystem and repository answers for the setup phase of `RunBackup`. -/
structure RunSetupEnv where
  /-- `fs::is_regular_file(config.sourceDir)`. -/
  sourceIsRegularFile : Bool
  /-- `fs::exists(config.sourceDir)`. -/
  sourceDirExists : Bool
  /-- `fs::exists(config.sourceDir.parent_path())`. -/
  sourceParentExists : Bool
  /-- whether `fs::create_directories` succeeds for `backupRoot/backup`. -/
  createBackupDirOk : Bool
  /-- whether `fs::create_directories` succeeds for `backupRoot/deleted`. -/
  createHistoryDirOk : Bool
  /-- result of `InitializeSchema`. -/
  schemaOk : Bool
deriving DecidableEq, Repr

/-- Observable outcome of `RunBackup`'s setup phase. -/
structure RunSetupResult where
  /-- `false` iff the run failed during setup. -/
  success : Bool
  /-- whether `fs::create_directories(backupRoot/"backup")` was executed. -/
  backupDirCreated : Bool
  /-- whether `fs::create_directories(backupRoot/"deleted")` was executed. -/
  historyDirCreated : Bool
  /-- whether the catalogue store was opened / schema creation attempted. -/
  catalogueTouched : Bool
  /-- whether the run proceeded past setup into processing. -/
  proceeded : Bool
deriving DecidableEq, Repr

/-- Embeds the setup phase of `RunBackup` (`BackupUtility.cpp` lines
30-51): derive `sourceRoot` (parent directory for a regular-file source),
return `false` when it does not exist — **before** any directory creation —
then create `backup/` and `deleted/` (best-effort), open the catalogue
store, and fail when schema creation fails. -/
def runBackupSetup (env : RunSetupEnv) : RunSetupResult :=
  let sourceRootExists :=
    if env.sourceIsRegularFile then env.sourceParentExists else env.sourceDirExists
  if sourceRootExists = false then
    { success := false, backupDirCreated := false, historyDirCreated := false,
      catalogueTouched := false, proceeded := false }
  else if env.schemaOk = false then
    { success := false, backupDirCreated := true, historyDirCreated := true,
      catalogueTouched := true, proceeded := false }
  else
    { success := true, backupDirCreated := true, historyDirCreated := true,
      catalogueTouched := true, proceeded := true }

/-- A setup environment whose `sourceDir` names a nonexistent path. -/
def c6AbsentSourceEnv : RunSetupEnv :=
  { sourceIsRegularFile := false, sourceDirExists := false,
    sourceParentExists := false, createBackupDirOk := true,
    createHistoryDirOk := true, schemaOk := true }

/-- C6 counterexample: for a nonexistent `sourceDir` the run does return
`success=false`, but contrary to the claim `backup/` and `deleted/` are NOT
created: the existence check returns before `fs::create_directories` runs. -/
theorem C6_counterexample :
    (runBackupSetup c6AbsentSourceEnv).success = false ∧
    (runBackupSetup c6AbsentSourceEnv).backupDirCreated = false ∧
    (runBackupSetup c6AbsentSourceEnv).historyDirCreated = false := by
  decide

/-- C6 amended: if `sourceDir` names a nonexistent path, `runBackup`
returns `success=false` immediately: the `backup/` and `deleted/`
directories are not created (the early return precedes directory
creation), the catalogue store is never opened, and the run never proceeds
to processing, so the catalogue contains no rows attributable to this run. -/
theorem C6_nonexistent_source_fails_before_any_side_effect (env : RunSetupEnv)
    (h1 : env.sourceIsRegularFile = false)
    (h2 : env.sourceDirExists = false) :
    runBackupSetup env =
      { success := false, backupDirCreated := false, historyDirCreated := false,
        catalogueTouched := false, proceeded := false } := by
  simp [runBackupSetup, h1, h2]

theorem C6_nonexistent_source_fails_before_any_side_effect_witness :
    runBackupSetup c6AbsentSourceEnv =
      { success := false, backupDirCreated := false, historyDirCreated := false,
        catalogueTouched := false, proceeded := false } :=
  C6_nonexistent_source_fails_before_any_side_effect c6AbsentSourceEnv rfl rfl

/-- C7: the change-type codec round-trips on all four values, and every
string other than the four literal identifiers decodes to `Unchanged`. -/
theorem C7_change_type_round_trip :
    (∀ s : ChangeType, StringToChangeType (ChangeTypeToString s) = s) ∧
    (∀ str : String, str ≠ "Unchanged" → str ≠ "Added" → str ≠ "Modified" →
      str ≠ "Deleted" → StringToChangeType str = ChangeType.Unchanged) := by
  constructor
  · intro s
    cases s <;> rfl
  · intro str h1 h2 h3 h4
    simp [StringToChangeType, h1, h2, h3, h4]

theorem C7_change_type_round_trip_witness :
    StringToChangeType (ChangeTypeToString ChangeType.Deleted) = ChangeType.Deleted ∧
    StringToChangeType "NotAStatus" = ChangeType.Unchanged :=
  ⟨C7_change_type_round_trip.1 ChangeType.Deleted,
   C7_change_type_round_trip.2 "NotAStatus" (by decide) (by decide) (by decide) (by decide)⟩

end Backup
